import Mathlib

/-!
Verification development for the smart-run-coach repository
(`src/training_analysis.py`, `src/strava_api.py`).

The Python source is shallowly embedded: JSON activity records become a
structure with `Option` fields (a `none` field models the key being absent
from the dict / a NaN cell in the pandas DataFrame), floating-point
quantities become rationals, the pagination loop becomes a well-founded
recursion over the un-fetched suffix of the feed, and every
print-and-`return None, None` path of `analyze_training_data` becomes a
distinct `Except` error value.
-/

set_option maxHeartbeats 1000000
set_option maxRecDepth 40000

namespace SmartRunCoach

/-- Gregorian calendar date as carried by parsed `start_date` timestamps
(`pd.to_datetime`).  Years in this development are CE years. -/
structure Date where
  year : Nat
  month : Nat
  day : Nat
deriving DecidableEq, Repr

/-- A UTC timestamp: a calendar date plus the second within the day. -/
structure Timestamp where
  date : Date
  sec : Nat
deriving DecidableEq, Repr

/-- Monotone encoding of a timestamp, used to decide chronological order of
`pd.to_datetime` values (valid fields: `month ≤ 12`, `day ≤ 31`,
`sec < 86400`, all far below the radices used here). -/
def tsVal (t : Timestamp) : Nat :=
  ((t.date.year * 400 + t.date.month) * 400 + t.date.day) * 100000 + t.sec

/-- Chronological `≤` on timestamps. -/
def tsLe (a b : Timestamp) : Bool := decide (tsVal a ≤ tsVal b)

/-- Chronological `<` on timestamps. -/
def tsLt (a b : Timestamp) : Bool := decide (tsVal a < tsVal b)

/-- Gregorian leap year. -/
def isLeap (y : Nat) : Bool := (y % 4 == 0 && y % 100 != 0) || y % 400 == 0

/-- Days in the months strictly before month `m` (1-based) of year `y`. -/
def daysBefore (y m : Nat) : Nat :=
  let base := [0, 31, 59, 90, 120, 151, 181, 212, 243, 273, 304, 334].getD (m - 1) 0
  if 2 < m && isLeap y then base + 1 else base

/-- Ordinal day of the year (1-based). -/
def dayOfYear (d : Date) : Nat := daysBefore d.year d.month + d.day

/-- ISO day of week (Monday = 1 … Sunday = 7), by Zeller's congruence;
the weekday underlying `Series.dt.isocalendar()`. -/
def isoDow (d : Date) : Nat :=
  let m := if d.month ≤ 2 then d.month + 12 else d.month
  let y := if d.month ≤ 2 then d.year - 1 else d.year
  let K := y % 100
  let J := y / 100
  let h := (d.day + (13 * (m + 1)) / 5 + K + K / 4 + J / 4 + 5 * J) % 7
  (h + 5) % 7 + 1

/-- `p(y)` from the ISO week-date rules (weekday anchor of 31 December). -/
def pIso (y : Nat) : Nat := (y + y / 4 - y / 100 + y / 400) % 7

/-- Number of ISO weeks in ISO year `y` (52 or 53). -/
def weeksInYear (y : Nat) : Nat :=
  if pIso y == 4 || pIso (y - 1) == 3 then 53 else 52

/-- ISO week number of a date; models `Series.dt.isocalendar().week`
(ISO 8601, as implemented by pandas). -/
def isoWeekNum (d : Date) : Nat :=
  let w := (dayOfYear d + 10 - isoDow d) / 7
  if w == 0 then weeksInYear (d.year - 1)
  else if weeksInYear d.year < w then 1
  else w

/-- ISO year of a date; models `Series.dt.isocalendar().year`. -/
def isoYearOf (d : Date) : Nat :=
  let w := (dayOfYear d + 10 - isoDow d) / 7
  if w == 0 then d.year - 1
  else if weeksInYear d.year < w then d.year + 1
  else d.year

/-- Full ISO (year, week) pair of a date, used to state the spec's
ISO-bucketing properties. -/
def isoPair (d : Date) : Nat × Nat := (isoYearOf d, isoWeekNum d)

/-- The grouping key the source builds in lines 118-120 and feeds to
`groupby(['year', 'week'])`: `df['year']` is the CALENDAR year (`dt.year`)
while `df['week']` is the ISO week number (`isocalendar().week`). -/
def weekKey (d : Date) : Nat × Nat := (d.year, isoWeekNum d)

-- Sanity checks of the calendar model (well-known ISO week-date facts).
example : isoDow ⟨2024, 1, 1⟩ = 1 := by decide
example : isoDow ⟨2023, 12, 31⟩ = 7 := by decide
example : isoPair ⟨2024, 1, 1⟩ = (2024, 1) := by decide
example : isoPair ⟨2023, 12, 31⟩ = (2023, 52) := by decide
example : isoPair ⟨2024, 12, 30⟩ = (2025, 1) := by decide
example : isoPair ⟨2021, 1, 1⟩ = (2020, 53) := by decide
example : isoPair ⟨2020, 12, 31⟩ = (2020, 53) := by decide
example : isoPair ⟨2016, 1, 3⟩ = (2015, 53) := by decide
example : isoPair ⟨2024, 3, 4⟩ = (2024, 10) := by decide
example : isoPair ⟨2024, 3, 10⟩ = (2024, 10) := by decide

/-- One activity record as returned by `get_activities` (a JSON dict).
A `none` field models the key being absent from the dict (equivalently, a
NaN/NaT cell in the DataFrame column built from the records).
Floating-point quantities are modelled as rationals. -/
structure Activity where
  start_date : Option Timestamp
  distance : Option ℚ
  moving_time : Option Int
  total_elevation_gain : Option ℚ
  id : Option Nat
deriving DecidableEq, Repr

/-- Which condition stopped the pagination loop of lines 53-84. -/
inductive StopReason where
  | emptyPage
  | earlyStop
deriving DecidableEq, Repr

/-- Result of the pagination loop: the accumulated `all_activities`, the
number of `get_activities` calls made, and the stopping condition. -/
structure FetchResult where
  acts : List Activity
  pages : Nat
  reason : StopReason
deriving DecidableEq, Repr

/-- Predicate of the early-termination filter (lines 69-71): keep `a` iff
it has a `start_date` that is not before the start boundary `s`. -/
def keepAct (s : Timestamp) (a : Activity) : Bool :=
  match a.start_date with
  | some t => tsLe s t
  | none => false

/-- `keepAct` lifted to an optional start boundary (no boundary keeps all). -/
def keepStart (sb : Option Timestamp) (a : Activity) : Bool :=
  match sb with
  | some s => keepAct s a
  | none => true

/-- Early-stop test of lines 63-67: a start boundary is set, the page's
last record carries a `start_date`, and that date precedes the boundary. -/
def pageStop (sb : Option Timestamp) (page : List Activity) : Bool :=
  match sb with
  | some s =>
    match page.getLast? with
    | some a =>
      match a.start_date with
      | some t => tsLt t s
      | none => false
    | none => false
  | none => false

/-- One structural pass of the pagination loop of lines 53-84, with an
explicit fuel so the recursion is structural (and hence kernel-evaluable).
`rest` is the part of the feed not yet fetched, so
`get_activities(per_page := ps, page := p)` is modelled as `rest.take ps`.
The loop stops on an empty page; on the early-stop condition it filters the
current page by the start boundary, appends only that filtered page, and
stops; otherwise it appends the whole page and continues with the next.
Whenever `rest.length < fuel` the fuel never runs out (each recursive step
consumes at least one record), so the fuel-0 clause is unreachable from
`fetchGo`. -/
def fetchAux (ps : Nat) (sb : Option Timestamp) : Nat → List Activity → FetchResult
  | 0, _ => ⟨[], 1, .emptyPage⟩
  | fuel + 1, rest =>
    if rest.take ps = [] then
      ⟨[], 1, .emptyPage⟩
    else if pageStop sb (rest.take ps) then
      ⟨(rest.take ps).filter (keepStart sb), 1, .earlyStop⟩
    else
      let r := fetchAux ps sb fuel (rest.drop ps)
      ⟨rest.take ps ++ r.acts, r.pages + 1, r.reason⟩

/-- The pagination loop of lines 53-84 over the whole feed suffix `rest`. -/
def fetchGo (ps : Nat) (sb : Option Timestamp) (rest : List Activity) : FetchResult :=
  fetchAux ps sb (rest.length + 1) rest

/-- `ceil(n / ps)` on naturals. -/
def ceilPages (n ps : Nat) : Nat := (n + ps - 1) / ps

/-- End-boundary filter predicate (line 111): keep `a` iff it has a
`start_date` that is not after `e`. -/
def endOk (e : Timestamp) (a : Activity) : Bool :=
  match a.start_date with
  | some t => tsLe t e
  | none => false

/-- `endOk` lifted to an optional end boundary (no boundary keeps all). -/
def keepEnd (eb : Option Timestamp) (a : Activity) : Bool :=
  match eb with
  | some e => endOk e a
  | none => true

/-- Lines 107-111: the post-hoc date-range filter over the DataFrame rows
(a row whose `start_date` is missing compares as NaT and is dropped by
either applied boundary filter). -/
def filterRange (sb eb : Option Timestamp) (acts : List Activity) : List Activity :=
  (acts.filter (keepStart sb)).filter (keepEnd eb)

/-- Lines 97-102: the required-columns check.  A DataFrame built from a
list of dicts has a column iff at least one record carries the key. -/
def requiredPresent (acts : List Activity) : Bool :=
  acts.any (fun a => a.start_date.isSome) &&
  acts.any (fun a => a.distance.isSome) &&
  acts.any (fun a => a.moving_time.isSome) &&
  acts.any (fun a => a.total_elevation_gain.isSome)

/-- The `(year, week)` grouping key of a record, or `none` when the record
has no `start_date` (such rows get NA keys and are dropped by `groupby`). -/
def weekKeyOf (a : Activity) : Option (Nat × Nat) :=
  a.start_date.map (fun t => weekKey t.date)

/-- Lexicographic order on (year, week) keys, as `groupby` sorts groups. -/
def keyLe (a b : Nat × Nat) : Bool :=
  decide (a.1 < b.1) || (decide (a.1 = b.1) && decide (a.2 ≤ b.2))

/-- Ordered insertion for `sortKeys`. -/
def insertKey (x : Nat × Nat) : List (Nat × Nat) → List (Nat × Nat)
  | [] => [x]
  | y :: ys => if keyLe x y then x :: y :: ys else y :: insertKey x ys

/-- Ascending insertion sort on (year, week) keys. -/
def sortKeys (l : List (Nat × Nat)) : List (Nat × Nat) := l.foldr insertKey []

/-- The distinct group keys of `groupby(['year', 'week'])`, in the sorted
order pandas emits groups. -/
def keysOf (rows : List Activity) : List (Nat × Nat) :=
  sortKeys (rows.filterMap weekKeyOf).dedup

/-- The rows of one `groupby` bucket. -/
def bucketOf (rows : List Activity) (k : Nat × Nat) : List Activity :=
  rows.filter (fun a => decide (weekKeyOf a = some k))

/-- One row of the `weekly_stats` DataFrame after lines 124-139.
`total_time_minutes` is the raw sum of `moving_time` (which is in seconds;
the name is the source's own mislabel, kept as-is). -/
structure WeeklyStat where
  year : Nat
  week : Nat
  total_distance_km : ℚ
  total_time_minutes : ℚ
  total_time_hours : ℚ
  total_elevation_meters : ℚ
  number_of_activities : Nat
  average_speed_kmh : Option ℚ
deriving DecidableEq, Repr

/-- Lines 124-139: one aggregated bucket.  Sums skip missing values
(pandas `sum` skips NaN) and `'id': 'count'` counts non-null ids.
`average_speed_kmh` is the unguarded float division of line 139: a zero
denominator yields a non-finite float (inf or NaN), modelled as `none`. -/
def mkStat (k : Nat × Nat) (bucket : List Activity) : WeeklyStat :=
  let dist : ℚ := (bucket.filterMap Activity.distance).sum
  let tmin : ℚ := ((bucket.filterMap Activity.moving_time).sum : ℤ)
  let elev : ℚ := (bucket.filterMap Activity.total_elevation_gain).sum
  let dkm := dist / 1000
  let th := tmin / 60
  { year := k.1
    week := k.2
    total_distance_km := dkm
    total_time_minutes := tmin
    total_time_hours := th
    total_elevation_meters := elev
    number_of_activities := (bucket.filterMap Activity.id).length
    average_speed_kmh := if th = 0 then none else some (dkm / th) }

/-- The full `weekly_stats` table: one `WeeklyStat` per distinct
(year, week) key among the filtered rows. -/
def weeklyStats (rows : List Activity) : List WeeklyStat :=
  (keysOf rows).map (fun k => mkStat k (bucketOf rows k))

/-- The print-and-`return None, None` paths of `analyze_training_data`. -/
inductive ProcError where
  | noActivities
  | missingColumns
  | emptyAfterFilter
  | aggKeyError
deriving DecidableEq, Repr

/-- Lines 94-164 (the `try` block over the fetched records `acts`).
`aggKeyError` is the `KeyError` raised inside `groupby(...).agg` when no
fetched record carried an `id` key (the DataFrame then has no `id` column);
the generic `except` handler turns it into `return None, None`. -/
def processFetched (acts : List Activity) (sb eb : Option Timestamp) :
    Except ProcError (List WeeklyStat) :=
  if requiredPresent acts then
    let rows := filterRange sb eb acts
    if rows.isEmpty then .error .emptyAfterFilter
    else if acts.all (fun a => a.id.isNone) then .error .aggKeyError
    else .ok (weeklyStats rows)
  else .error .missingColumns

/-- `analyze_training_data` (lines 38-164): fetch all pages with
`per_page = 100`, bail out when nothing was fetched (lines 88-90), then
process the fetched records. -/
def analyze_training_data (feed : List Activity) (sb eb : Option Timestamp) :
    Except ProcError (List WeeklyStat) :=
  let fetched := (fetchGo 100 sb feed).acts
  if fetched.isEmpty then .error .noActivities
  else processFetched fetched sb eb

instance {ε α : Type} [DecidableEq ε] [DecidableEq α] : DecidableEq (Except ε α) :=
  fun a b =>
    match a, b with
    | .error e, .error f =>
      if h : e = f then isTrue (congrArg Except.error h)
      else isFalse (fun hh => h (by injection hh))
    | .ok x, .ok y =>
      if h : x = y then isTrue (congrArg Except.ok h)
      else isFalse (fun hh => h (by injection hh))
    | .error _, .ok _ => isFalse (fun hh => Except.noConfusion hh)
    | .ok _, .error _ => isFalse (fun hh => Except.noConfusion hh)

/-- The ASCII whitespace set removed by Python `str.strip()`. -/
def isPySpace (c : Char) : Bool :=
  c == ' ' || c == '\t' || c == '\n' || c == '\x0b' || c == '\x0c' || c == '\r'

/-- Python `str.strip()` on a line modelled as a list of characters. -/
def stripEnds (l : List Char) : List Char :=
  ((l.dropWhile isPySpace).reverse.dropWhile isPySpace).reverse

/-- Python `str.split('=')` (no maxsplit): split at every `'='`. -/
def splitEq : List Char → List (List Char)
  | [] => [[]]
  | c :: rest =>
    match splitEq rest with
    | [] => [[c]]
    | h :: t => if c == '=' then [] :: h :: t else (c :: h) :: t

/-- The in-memory `credentials` dict: key/value pairs of characters. -/
abbrev CredMap := List (List Char × List Char)

/-- `credentials[key] = value`: a later assignment to a key wins. -/
def dictInsert (m : CredMap) (k v : List Char) : CredMap :=
  (k, v) :: m.filter (fun p => !(p.1 == k))

/-- One iteration of the loop at lines 19-22: a line without `'='` is
skipped; otherwise the line is stripped and split on `'='`, and the
two-way unpacking `key, value = ...` raises `ValueError` (modelled as
`none`) unless the split has exactly two parts. -/
def credLine (m : CredMap) (l : List Char) : Option CredMap :=
  if l.contains '=' then
    match splitEq (stripEnds l) with
    | [k, v] => some (dictInsert m (stripEnds k) (stripEnds v))
    | _ => none
  else some m

/-- The line loop; a raised `ValueError` aborts the remaining lines. -/
def credFold : Option CredMap → List (List Char) → Option CredMap
  | none, _ => none
  | some m, [] => some m
  | some m, l :: ls => credFold (credLine m l) ls

/-- Lines 17-22: parse all lines of the credentials file. -/
def buildCreds (lines : List (List Char)) : Option CredMap :=
  credFold (some []) lines

/-- Observable outcome of `get_credentials`: the returned pair, or a
process exit with the given code. -/
inductive CredResult where
  | ok (client_id client_secret : List Char)
  | exit (code : Nat)
deriving DecidableEq, Repr

/-- `get_credentials` (lines 10-36).  The file argument is `none` when the
file does not exist (`FileNotFoundError`), otherwise its list of lines.
Both `except` branches call `exit(1)`; the missing-key `ValueError` of
lines 24-25 is caught by the generic handler and also ends in `exit(1)`. -/
def get_credentials (file : Option (List (List Char))) : CredResult :=
  match file with
  | none => .exit 1
  | some lines =>
    match buildCreds lines with
    | none => .exit 1
    | some m =>
      match m.lookup ("client_id".toList), m.lookup ("client_secret".toList) with
      | some cid, some cs => .ok cid cs
      | some _, none => .exit 1
      | none, _ => .exit 1

/-- The form body POSTed to the token endpoint (lines 72-77). -/
structure TokenRequest where
  client_id : List Char
  client_secret : List Char
  code : List Char
  grant_type : List Char
deriving DecidableEq, Repr

/-- `OAuthHandler.do_GET` (lines 41-55) applied to the single callback
request: `params` is the `parse_qs` result with each key mapped to its
first value (`parse_qs` drops blank values, so stored values are
non-empty).  `server.auth_code` is set iff a `code` parameter is present. -/
def authCodeOf (params : List (List Char × List Char)) : Option (List Char) :=
  params.lookup ("code".toList)

/-- `get_access_token` (lines 57-80).  The local server serves exactly one
inbound request (`server.handle_request()` is called once), whose parsed
query is `params`; the POST to the token endpoint plus `response.json()`
is abstracted as `post`.  `if server.auth_code:` is Python truthiness:
both `None` and the empty string fail it. -/
def get_access_token {α : Type} (client_id client_secret : List Char)
    (params : List (List Char × List Char)) (post : TokenRequest → α) : Option α :=
  match authCodeOf params with
  | some c =>
    if c.isEmpty then none
    else some (post ⟨client_id, client_secret, c, "authorization_code".toList⟩)
  | none => none

/-! ### Concrete records used by witnesses and counterexamples -/

/-- Noon-UTC timestamp on a given date. -/
def atNoon (y m d : Nat) : Timestamp := ⟨⟨y, m, d⟩, 43200⟩

/-- An activity with every field present. -/
def mkActivity (t : Timestamp) (dist : ℚ) (mt : Int) (i : Nat) : Activity :=
  ⟨some t, some dist, some mt, some 0, some i⟩

/-- Activity on 2024-01-01 (ISO 2024-W1, calendar year 2024). -/
def actJan1 : Activity := mkActivity (atNoon 2024 1 1) 5000 1800 1

/-- Activity on 2024-12-30 (ISO 2025-W1, calendar year 2024). -/
def actDec30 : Activity := mkActivity (atNoon 2024 12 30) 8000 2400 2

/-- The spec's synthetic feed: three activities in ISO week 2024-W10 with
distances [5000 m, 10000 m, 0 m] and moving times [1800 s, 3600 s, 600 s]. -/
def feedW10 : List Activity :=
  [mkActivity (atNoon 2024 3 4) 5000 1800 11,
   mkActivity (atNoon 2024 3 5) 10000 3600 12,
   mkActivity (atNoon 2024 3 6) 0 600 13]

/-- An old activity, used to build a feed that triggers early termination. -/
def actOld : Activity := mkActivity (atNoon 2024 1 1) 1000 600 7

/-- A 150-activity feed, all predating the start boundary `sbSep`. -/
def feedOld : List Activity := List.replicate 150 actOld

/-- The start boundary used in the source's `__main__` (2024-09-01). -/
def sbSep : Timestamp := ⟨⟨2024, 9, 1⟩, 0⟩

/-- The end boundary used in the source's `__main__` (2025-04-21). -/
def ebApr : Timestamp := ⟨⟨2025, 4, 21⟩, 0⟩

/-- An activity with no `id` key. -/
def actNoId : Activity := ⟨some (atNoon 2024 10 2), some 4000, some 1200, some 10, none⟩

/-- An activity whose moving time is zero. -/
def actZeroTime : Activity := mkActivity (atNoon 2024 5 6) 100 0 21

-- Scratch sanity checks of the pipeline on concrete data.
example :
    (analyze_training_data feedW10 none none).map
      (fun l => l.map (fun s => (s.year, s.week, s.number_of_activities))) =
      .ok [(2024, 10, 3)] := by decide
example :
    (analyze_training_data [actJan1, actDec30] none none).map
      (fun l => l.map (fun s => (s.year, s.week, s.number_of_activities))) =
      .ok [(2024, 1, 2)] := by decide
example : (fetchGo 100 (some sbSep) feedOld).pages = 1 := by decide
example : (fetchGo 100 (some sbSep) feedOld).reason = .earlyStop := by decide
example : get_credentials (some ["client_id = abc".toList, "client_secret = xyz".toList]) =
    .ok "abc".toList "xyz".toList := by decide
example : get_credentials (some ["client_secret = ab=cd".toList]) = .exit 1 := by decide

/-- The single weekly row produced by the synthetic W10 feed. -/
def statW10 : WeeklyStat :=
  mkStat (2024, 10) (bucketOf (filterRange none none feedW10) (2024, 10))

/-- The single weekly row produced by a feed whose only activity has zero
moving time. -/
def statZero : WeeklyStat :=
  mkStat (2024, 19) (bucketOf (filterRange none none [actZeroTime]) (2024, 19))

/-- A well-formed credentials file. -/
def credLinesGood : List (List Char) :=
  ["client_id = abc".toList, "client_secret = xyz".toList]

/-- A credentials file whose secret value itself contains `'='`. -/
def credLinesBad : List (List Char) :=
  ["client_id = abc".toList, "client_secret = ab=cd".toList]

/-- A comment-like line with no `'='` in it. -/
def junkLine : List Char := "just a comment".toList

/-- Parsed query parameters of a callback request carrying a code. -/
def oauthParams : List (List Char × List Char) :=
  [("code".toList, "thecode".toList)]

/-! ### Helper lemmas -/

theorem ceilPages_zero {ps : Nat} (hps : 0 < ps) : ceilPages 0 ps = 0 := by
  unfold ceilPages
  exact Nat.div_eq_of_lt (by omega)

theorem ceilPages_rec {n ps : Nat} (hps : 0 < ps) (hn : 0 < n) :
    ceilPages n ps = ceilPages (n - ps) ps + 1 := by
  unfold ceilPages
  have h1 : n + ps - 1 = (n - 1) + ps := by omega
  rw [h1, Nat.add_div_right _ hps]
  rcases Nat.lt_or_ge ps n with h | h
  · have h2 : n - ps + ps - 1 = n - 1 := by omega
    rw [h2]
  · have h2 : n - ps = 0 := by omega
    rw [h2]
    have h3 : (n - 1) / ps = 0 := Nat.div_eq_of_lt (by omega)
    have h4 : (0 + ps - 1) / ps = 0 := Nat.div_eq_of_lt (by omega)
    rw [h3, h4]

/-- Extract the components of a successful early-stop test. -/
theorem pageStop_true {sb : Option Timestamp} {page : List Activity}
    (h : pageStop sb page = true) :
    ∃ s a t, sb = some s ∧ page.getLast? = some a ∧
      a.start_date = some t ∧ tsLt t s = true := by
  cases sb with
  | none => simp [pageStop] at h
  | some s =>
    cases hl : page.getLast? with
    | none => simp [pageStop, hl] at h
    | some a =>
      cases hsd : a.start_date with
      | none => simp [pageStop, hl, hsd] at h
      | some t =>
        exact ⟨s, a, t, rfl, rfl, hsd, by simpa [pageStop, hl, hsd] using h⟩

/-- Full characterization of the pagination loop, by induction on the fuel:
if it stops on an empty page it has fetched the whole remaining feed in
`ceil(n/ps) + 1` calls; if it stops early after `m + 1` calls it has
appended the first `m` pages unfiltered plus the current page filtered by
the start boundary, and the current page's last record predates the
boundary. -/
theorem fetchAux_spec (ps : Nat) (hps : 0 < ps) (sb : Option Timestamp) :
    ∀ fuel : Nat, ∀ rest : List Activity, rest.length < fuel →
      ((fetchAux ps sb fuel rest).reason = .emptyPage →
        (fetchAux ps sb fuel rest).acts = rest ∧
        (fetchAux ps sb fuel rest).pages = ceilPages rest.length ps + 1) ∧
      ((fetchAux ps sb fuel rest).reason = .earlyStop →
        ∃ m s, sb = some s ∧
          (fetchAux ps sb fuel rest).pages = m + 1 ∧
          (fetchAux ps sb fuel rest).acts =
            rest.take (m * ps) ++ ((rest.drop (m * ps)).take ps).filter (keepAct s) ∧
          ∃ a t, ((rest.drop (m * ps)).take ps).getLast? = some a ∧
            a.start_date = some t ∧ tsLt t s = true) := by
  intro fuel
  induction fuel with
  | zero => intro rest h; exact absurd h (Nat.not_lt_zero _)
  | succ fuel ih =>
    intro rest hlen
    by_cases h1 : rest.take ps = []
    · have e : fetchAux ps sb (fuel + 1) rest = ⟨[], 1, .emptyPage⟩ := by
        simp [fetchAux, h1]
      have hrest : rest = [] := by
        rcases List.take_eq_nil_iff.mp h1 with h | h
        · omega
        · exact h
      constructor
      · intro _
        rw [e, hrest]
        exact ⟨rfl, by simp [ceilPages_zero hps]⟩
      · intro hc
        rw [e] at hc
        exact absurd hc (by simp)
    · by_cases h2 : pageStop sb (rest.take ps) = true
      · have e : fetchAux ps sb (fuel + 1) rest =
            ⟨(rest.take ps).filter (keepStart sb), 1, .earlyStop⟩ := by
          simp [fetchAux, h1, h2]
        constructor
        · intro hc
          rw [e] at hc
          exact absurd hc (by simp)
        · intro _
          rcases pageStop_true h2 with ⟨s, a, t, hsb, hl, hsd, hts⟩
          refine ⟨0, s, hsb, by rw [e], ?_, a, t, ?_, hsd, hts⟩
          · rw [e, hsb]
            simp only [Nat.zero_mul, List.take_zero, List.drop_zero, List.nil_append]
            rfl
          · simpa using hl
      · have e : fetchAux ps sb (fuel + 1) rest =
            ⟨rest.take ps ++ (fetchAux ps sb fuel (rest.drop ps)).acts,
             (fetchAux ps sb fuel (rest.drop ps)).pages + 1,
             (fetchAux ps sb fuel (rest.drop ps)).reason⟩ := by
          simp [fetchAux, h1, h2]
        have hne : rest ≠ [] := by
          intro hr
          exact h1 (by simp [hr])
        have hpos : 0 < rest.length := List.length_pos.mpr hne
        have hfuel : (rest.drop ps).length < fuel := by
          rw [List.length_drop]
          omega
        have IH := ih (rest.drop ps) hfuel
        constructor
        · intro hc
          rw [e] at hc
          rcases IH.1 hc with ⟨hacts, hpages⟩
          constructor
          · rw [e]
            simp only [hacts]
            exact List.take_append_drop ps rest
          · rw [e, hpages, List.length_drop]
            rw [ceilPages_rec hps hpos]
        · intro hc
          rw [e] at hc
          rcases IH.2 hc with ⟨m, s, hsb, hpages, hacts, a, t, hl, hsd, hts⟩
          have hmul : (m + 1) * ps = ps + m * ps := by ring
          have hdrop : (rest.drop ps).drop (m * ps) = rest.drop ((m + 1) * ps) := by
            rw [List.drop_drop, hmul]
          refine ⟨m + 1, s, hsb, by rw [e, hpages], ?_, a, t, ?_, hsd, hts⟩
          · rw [e]
            simp only [hacts]
            rw [hmul, List.take_add, ← List.drop_drop, List.append_assoc]
          · rw [hdrop] at hl
            exact hl

/-- A successful run of the processing stage returns exactly the weekly
table of the date-filtered rows. -/
theorem processFetched_ok {acts : List Activity} {sb eb : Option Timestamp}
    {stats : List WeeklyStat} (h : processFetched acts sb eb = .ok stats) :
    stats = weeklyStats (filterRange sb eb acts) := by
  simp only [processFetched] at h
  split at h
  · split at h
    · exact Except.noConfusion h
    · split at h
      · exact Except.noConfusion h
      · injection h with h'
        exact h'.symm
  · exact Except.noConfusion h

/-- Every row of the weekly table is the aggregate of its own bucket. -/
theorem mem_weeklyStats {rows : List Activity} {st : WeeklyStat}
    (h : st ∈ weeklyStats rows) :
    st = mkStat (st.year, st.week) (bucketOf rows (st.year, st.week)) := by
  rcases List.mem_map.mp h with ⟨k, _, hst⟩
  have hy : st.year = k.1 := by rw [← hst]; rfl
  have hw : st.week = k.2 := by rw [← hst]; rfl
  rw [hy, hw]
  exact hst.symm

/-- `filterMap` drops nothing when the function is total on the list. -/
theorem length_filterMap_all {α β : Type} (f : α → Option β) :
    ∀ l : List α, (∀ a ∈ l, (f a).isSome) → (l.filterMap f).length = l.length := by
  intro l
  induction l with
  | nil => intro _; rfl
  | cons a l ih =>
    intro h
    rcases ho : f a with _ | b
    · have hm := h a (List.mem_cons_self a l)
      rw [ho] at hm
      exact absurd hm (by simp)
    · simp only [List.filterMap_cons, ho, List.length_cons]
      rw [ih (fun x hx => h x (List.mem_cons_of_mem a hx))]

theorem credFold_none : ∀ ls : List (List Char), credFold none ls = none := by
  intro ls
  cases ls <;> rfl

/-- `split('=')` produces one more part than there are `'='` characters. -/
theorem splitEq_length : ∀ l : List Char, (splitEq l).length = l.count '=' + 1 := by
  intro l
  induction l with
  | nil => rfl
  | cons c rest ih =>
    cases hs : splitEq rest with
    | nil =>
      rw [hs] at ih
      simp at ih
    | cons h t =>
      rw [hs] at ih
      simp only [List.length_cons] at ih
      by_cases hc : c = '='
      · subst hc
        have hl : (splitEq ('=' :: rest)).length = t.length + 2 := by
          simp [splitEq, hs]
        rw [hl, List.count_cons_self]
        omega
      · have hbeq : (c == '=') = false := by simpa using hc
        have hl : (splitEq (c :: rest)).length = t.length + 1 := by
          simp [splitEq, hs, hbeq]
        rw [hl, List.count_cons_of_ne (fun he => hc he.symm)]
        omega

/-- `dropWhile` cannot change the count of an element the predicate
rejects. -/
theorem count_dropWhile_keep (p : Char → Bool) (a : Char) (ha : p a = false) :
    ∀ l : List Char, (l.dropWhile p).count a = l.count a := by
  intro l
  induction l with
  | nil => rfl
  | cons c rest ih =>
    by_cases hc : p c = true
    · rw [List.dropWhile_cons_of_pos hc, ih, List.count_cons_of_ne]
      intro he
      rw [he, hc] at ha
      exact Bool.noConfusion ha
    · rw [List.dropWhile_cons_of_neg hc]

/-- `strip` removes only whitespace, so it preserves the `'='` count. -/
theorem count_stripEnds (l : List Char) : (stripEnds l).count '=' = l.count '=' := by
  unfold stripEnds
  rw [List.count_reverse, count_dropWhile_keep isPySpace '=' (by decide),
      List.count_reverse, count_dropWhile_keep isPySpace '=' (by decide)]

/-- A line with at least two `'='` characters makes the two-way unpacking
raise `ValueError`. -/
theorem credLine_bad {m : CredMap} {l : List Char} (h : 2 ≤ l.count '=') :
    credLine m l = none := by
  have hmem : '=' ∈ l := List.count_pos_iff.mp (by omega)
  have hcontains : l.contains '=' = true := List.elem_iff.mpr hmem
  have hlen : (splitEq (stripEnds l)).length = l.count '=' + 1 := by
    rw [splitEq_length, count_stripEnds]
  unfold credLine
  rw [hcontains]
  simp only [if_true]
  rcases hsp : splitEq (stripEnds l) with _ | ⟨k, _ | ⟨v, _ | ⟨w, t⟩⟩⟩
  · rfl
  · rfl
  · rw [hsp] at hlen
    simp at hlen
    omega
  · rfl

/-- A line with no `'='` at all is silently skipped. -/
theorem credLine_skip {m : CredMap} {l : List Char} (h : l.contains '=' = false) :
    credLine m l = some m := by
  unfold credLine
  rw [h]
  rfl

theorem credFold_bad {l : List Char} (hc : 2 ≤ l.count '=') :
    ∀ lines : List (List Char), ∀ st : Option CredMap, l ∈ lines →
      credFold st lines = none := by
  intro lines
  induction lines with
  | nil => intro st h; exact absurd h (List.not_mem_nil l)
  | cons p rest ih =>
    intro st hmem
    cases st with
    | none => exact credFold_none _
    | some m =>
      rcases List.mem_cons.mp hmem with he | hr
      · subst he
        show credFold (credLine m l) rest = none
        rw [credLine_bad hc]
        exact credFold_none rest
      · exact ih (credLine m p) hr

theorem credFold_skip {l : List Char} (hc : l.contains '=' = false) :
    ∀ pre post : List (List Char), ∀ st : Option CredMap,
      credFold st (pre ++ l :: post) = credFold st (pre ++ post) := by
  intro pre
  induction pre with
  | nil =>
    intro post st
    cases st with
    | none => rw [credFold_none, credFold_none]
    | some m =>
      show credFold (credLine m l) post = credFold (some m) post
      rw [credLine_skip hc]
  | cons p pre ih =>
    intro post st
    cases st with
    | none => rw [credFold_none, credFold_none]
    | some m =>
      show credFold (credLine m p) (pre ++ l :: post) =
        credFold (credLine m p) (pre ++ post)
      exact ih post (credLine m p)

/-! ### Claim theorems -/

/-- Claim C7: `get_credentials` reads `key = value` lines into a mapping
and returns the `(client_id, client_secret)` pair; it terminates the
process with exit code 1 whenever the file does not exist, and whenever
the `client_id` or `client_secret` key is absent from the parsed
mapping. -/
theorem C7_get_credentials_spec :
    (get_credentials none = .exit 1) ∧
    (∀ lines m, buildCreds lines = some m →
      (m.lookup ("client_id".toList) = none ∨
       m.lookup ("client_secret".toList) = none) →
      get_credentials (some lines) = .exit 1) ∧
    (∀ lines m cid cs, buildCreds lines = some m →
      m.lookup ("client_id".toList) = some cid →
      m.lookup ("client_secret".toList) = some cs →
      get_credentials (some lines) = .ok cid cs) := by
  refine ⟨rfl, ?_, ?_⟩
  · intro lines m hm hmiss
    simp only [get_credentials, hm]
    rcases hmiss with h | h
    · rw [h]
    · rw [h]
      cases m.lookup ("client_id".toList) <;> rfl
  · intro lines m cid cs hm hcid hcs
    simp only [get_credentials, hm, hcid, hcs]

/-- Witness for C7 on a concrete well-formed file. -/
theorem C7_get_credentials_spec_witness :
    get_credentials (some credLinesGood) = .ok "abc".toList "xyz".toList :=
  C7_get_credentials_spec.2.2 credLinesGood
    [("client_secret".toList, "xyz".toList), ("client_id".toList, "abc".toList)]
    "abc".toList "xyz".toList (by decide) (by decide) (by decide)

/-- Claim C9: `get_credentials` succeeds only when each `=`-containing
line unpacks into exactly one key and one value — a line with a second
`'='` (e.g. inside the value) raises in the two-way unpacking, which the
generic handler turns into `exit(1)` — while a line with no `'='` at all
is silently skipped (removing it does not change the result). -/
theorem C9_line_unpacking :
    (∀ lines l, l ∈ lines → 2 ≤ l.count '=' →
      get_credentials (some lines) = .exit 1) ∧
    (∀ pre post l, l.contains '=' = false →
      get_credentials (some (pre ++ l :: post)) =
        get_credentials (some (pre ++ post))) := by
  constructor
  · intro lines l hmem hc
    simp only [get_credentials, buildCreds, credFold_bad hc lines (some []) hmem]
  · intro pre post l hc
    simp only [get_credentials, buildCreds, credFold_skip hc pre post (some [])]

/-- Witness for C9: a secret containing `'='` exits with code 1, and a
comment line without `'='` is ignored. -/
theorem C9_line_unpacking_witness :
    get_credentials (some credLinesBad) = .exit 1 ∧
    get_credentials (some ([] ++ junkLine :: credLinesGood)) =
      get_credentials (some ([] ++ credLinesGood)) :=
  ⟨C9_line_unpacking.1 credLinesBad "client_secret = ab=cd".toList
      (by decide) (by decide),
   C9_line_unpacking.2 [] credLinesGood junkLine (by decide)⟩

/-- Claim C8: `get_access_token` serves exactly one inbound callback
request (the single `server.handle_request()` call is modelled by the one
`params` argument); if that request's query lacks a `code` parameter the
function returns `none` (authentication failure, no token obtained), and
if a code is present (non-blank, as `parse_qs` guarantees) it POSTs
`grant_type = authorization_code` with that code to the token endpoint and
returns the parsed payload. -/
theorem C8_oauth_callback {α : Type} (post : TokenRequest → α)
    (cid cs : List Char) (params : List (List Char × List Char)) :
    (authCodeOf params = none → get_access_token cid cs params post = none) ∧
    (∀ c, authCodeOf params = some c → c ≠ [] →
      get_access_token cid cs params post =
        some (post ⟨cid, cs, c, "authorization_code".toList⟩)) := by
  constructor
  · intro h
    simp only [get_access_token, h]
  · intro c hc hne
    have he : c.isEmpty = false := by
      cases c
      · exact absurd rfl hne
      · rfl
    simp only [get_access_token, hc, he, Bool.false_eq_true, if_false]

/-- Witness for C8 on a concrete callback query. -/
theorem C8_oauth_callback_witness :
    get_access_token "cid".toList "cs".toList oauthParams (fun r => r.code) =
      some "thecode".toList :=
  (C8_oauth_callback (fun r => r.code) "cid".toList "cs".toList oauthParams).2
    "thecode".toList (by decide) (by decide)

/-- Claim C10: `analyze_training_data` validates only the four columns
`start_date`, `distance`, `moving_time`, `total_elevation_gain`, yet the
weekly aggregation also touches the `id` column: a feed whose fetched
activities all carry the four fields but lack `id` (and which survives
date filtering) passes the required-columns check and instead raises
inside the `groupby` aggregation, returning `(None, None)` through the
generic handler (`.error .aggKeyError`, a path distinct from
`.missingColumns`). -/
theorem C10_missing_id_column (feed : List Activity) (sb eb : Option Timestamp)
    (hfields : ∀ a ∈ (fetchGo 100 sb feed).acts,
      a.start_date.isSome ∧ a.distance.isSome ∧ a.moving_time.isSome ∧
      a.total_elevation_gain.isSome)
    (hnoid : ∀ a ∈ (fetchGo 100 sb feed).acts, a.id = none)
    (hne : (fetchGo 100 sb feed).acts ≠ [])
    (hrows : filterRange sb eb (fetchGo 100 sb feed).acts ≠ []) :
    analyze_training_data feed sb eb = .error .aggKeyError ∧
    requiredPresent (fetchGo 100 sb feed).acts = true := by
  rcases List.exists_mem_of_ne_nil _ hne with ⟨a0, ha0⟩
  have hreq : requiredPresent (fetchGo 100 sb feed).acts = true := by
    unfold requiredPresent
    rcases hfields a0 ha0 with ⟨h1, h2, h3, h4⟩
    simp only [Bool.and_eq_true, List.any_eq_true]
    exact ⟨⟨⟨⟨a0, ha0, h1⟩, ⟨a0, ha0, h2⟩⟩, ⟨a0, ha0, h3⟩⟩, ⟨a0, ha0, h4⟩⟩
  refine ⟨?_, hreq⟩
  have hemp : (fetchGo 100 sb feed).acts.isEmpty = false := by
    cases hacts : (fetchGo 100 sb feed).acts
    · exact absurd hacts hne
    · rfl
  have hrowsemp : (filterRange sb eb (fetchGo 100 sb feed).acts).isEmpty = false := by
    cases hr : filterRange sb eb (fetchGo 100 sb feed).acts
    · exact absurd hr hrows
    · rfl
  have hall : ((fetchGo 100 sb feed).acts.all fun a => a.id.isNone) = true := by
    rw [List.all_eq_true]
    intro a ha
    rw [hnoid a ha]
    rfl
  simp only [analyze_training_data, processFetched, hemp, hreq, hrowsemp, hall,
    Bool.false_eq_true, if_false, if_true]

/-- Witness for C10 on a one-activity feed with no `id` field. -/
theorem C10_missing_id_column_witness :
    analyze_training_data [actNoId] none none = .error .aggKeyError ∧
    requiredPresent (fetchGo 100 none [actNoId]).acts = true :=
  C10_missing_id_column [actNoId] none none (by decide) (by decide)
    (by decide) (by decide)

/-- Claim C1 (amended): every retained activity is grouped into the bucket
keyed by the (calendar year, ISO week number) of its start timestamp — any
activity in a bucket carries that bucket's key, so activities with
different keys land in distinct buckets — and the spec's example pair
2024-01-01 / 2023-12-31 has distinct keys.  Grouping is NOT by the full
ISO (year, week) pair: the source takes `dt.year`, the calendar year, so
two activities in different ISO pairs can share a bucket (see the
counterexample). -/
theorem C1_grouping_key :
    (∀ rows : List Activity, ∀ k : Nat × Nat, ∀ a ∈ bucketOf rows k,
      ∃ t, a.start_date = some t ∧ weekKey t.date = k) ∧
    weekKey ⟨2024, 1, 1⟩ ≠ weekKey ⟨2023, 12, 31⟩ := by
  constructor
  · intro rows k a ha
    have h2 : weekKeyOf a = some k := of_decide_eq_true (List.mem_filter.mp ha).2
    cases hsd : a.start_date with
    | none =>
      rw [weekKeyOf, hsd] at h2
      exact Option.noConfusion h2
    | some t =>
      refine ⟨t, rfl, ?_⟩
      rw [weekKeyOf, hsd] at h2
      exact Option.some.inj h2
  · decide

/-- Witness for C1 on a concrete activity. -/
theorem C1_grouping_key_witness :
    ∃ t, actJan1.start_date = some t ∧ weekKey t.date = (2024, 1) :=
  C1_grouping_key.1 [actJan1] (2024, 1) actJan1 (by decide)

/-- Counterexample for C1 as originally stated: 2024-01-01 (ISO 2024-W1)
and 2024-12-30 (ISO 2025-W1) lie in different ISO (year, week) pairs, yet
`analyze_training_data` merges them into the single bucket (2024, 1). -/
theorem C1_iso_pair_counterexample :
    isoPair (atNoon 2024 1 1).date ≠ isoPair (atNoon 2024 12 30).date ∧
    (analyze_training_data [actJan1, actDec30] none none).map
        (fun l => l.map (fun s => (s.year, s.week, s.number_of_activities))) =
      .ok [(2024, 1, 2)] := by decide

/-- Claim C2: for every weekly bucket, `total_time_hours` equals the sum
of the bucket's `moving_time` values (seconds) divided by 60 and
`total_distance_km` equals the summed distance in meters divided by 1000;
on the spec's synthetic three-activity W10 feed the bucket reports
`total_distance_km = 15`, `number_of_activities = 3` and
`total_time_hours = (1800 + 3600 + 600) / 60`. -/
theorem C2_weekly_sums :
    (∀ rows : List Activity, ∀ st ∈ weeklyStats rows,
      st.total_time_hours =
        ((((bucketOf rows (st.year, st.week)).filterMap
            Activity.moving_time).sum : ℤ) : ℚ) / 60 ∧
      st.total_distance_km =
        ((bucketOf rows (st.year, st.week)).filterMap
          Activity.distance).sum / 1000) ∧
    (analyze_training_data feedW10 none none).map
        (fun l => l.map (fun s =>
          (s.total_distance_km, s.number_of_activities, s.total_time_hours))) =
      .ok [(15, 3, (1800 + 3600 + 600) / 60)] := by
  constructor
  · intro rows st hst
    have hrepr := mem_weeklyStats hst
    exact ⟨congrArg WeeklyStat.total_time_hours hrepr,
           congrArg WeeklyStat.total_distance_km hrepr⟩
  · have h1 : (analyze_training_data feedW10 none none).map
        (fun l => l.map (fun s =>
          (s.total_distance_km, s.number_of_activities, s.total_time_hours))) =
        .ok [(statW10.total_distance_km, statW10.number_of_activities,
          statW10.total_time_hours)] := rfl
    have hd : statW10.total_distance_km = 15 := by
      have hfm : (bucketOf (filterRange none none feedW10) (2024, 10)).filterMap
          Activity.distance = [5000, 10000, 0] := by decide
      show ((bucketOf (filterRange none none feedW10) (2024, 10)).filterMap
        Activity.distance).sum / 1000 = (15 : ℚ)
      rw [hfm]
      norm_num [List.sum_cons, List.sum_nil]
    have hn : statW10.number_of_activities = 3 := by decide
    have ht : statW10.total_time_hours = (1800 + 3600 + 600) / 60 := by
      have hgm : (bucketOf (filterRange none none feedW10) (2024, 10)).filterMap
          Activity.moving_time = [1800, 3600, 600] := by decide
      show ((((bucketOf (filterRange none none feedW10) (2024, 10)).filterMap
        Activity.moving_time).sum : ℤ) : ℚ) / 60 = ((1800 : ℚ) + 3600 + 600) / 60
      rw [hgm]
      norm_num [List.sum_cons, List.sum_nil]
    rw [h1, hd, hn, ht]

/-- Witness for C2 on the synthetic W10 feed's bucket. -/
theorem C2_weekly_sums_witness :
    statW10.total_time_hours =
      ((((bucketOf (filterRange none none feedW10)
          (statW10.year, statW10.week)).filterMap
          Activity.moving_time).sum : ℤ) : ℚ) / 60 ∧
    statW10.total_distance_km =
      ((bucketOf (filterRange none none feedW10)
        (statW10.year, statW10.week)).filterMap
        Activity.distance).sum / 1000 :=
  C2_weekly_sums.1 (filterRange none none feedW10) statW10 (List.Mem.head _)

/-- Claim C3 (amended): the fetch loop halts exactly on an empty page or —
with a start boundary — when the current page's last record predates it;
on the early stop only the current page is filtered (the `m` earlier pages
are appended unfiltered); when the loop halts on the empty page it has
fetched the entire feed, making `ceil(n/ps) + 1` calls, i.e. exactly
`ceil(n/ps)` non-empty page fetches.  The originally claimed universal
page count `ceil(n/ps)` fails under early termination (see the
counterexample). -/
theorem C3_pagination (ps : Nat) (hps : 0 < ps) (sb : Option Timestamp)
    (feed : List Activity) :
    ((fetchGo ps sb feed).reason = .emptyPage →
      (fetchGo ps sb feed).acts = feed ∧
      (fetchGo ps sb feed).pages = ceilPages feed.length ps + 1) ∧
    ((fetchGo ps sb feed).reason = .earlyStop →
      ∃ m s, sb = some s ∧
        (fetchGo ps sb feed).pages = m + 1 ∧
        (fetchGo ps sb feed).acts =
          feed.take (m * ps) ++ ((feed.drop (m * ps)).take ps).filter (keepAct s) ∧
        ∃ a t, ((feed.drop (m * ps)).take ps).getLast? = some a ∧
          a.start_date = some t ∧ tsLt t s = true) :=
  fetchAux_spec ps hps sb (feed.length + 1) feed (Nat.lt_succ_self _)

/-- Witness for C3: a 3-activity feed at page size 2 is fetched whole in
`ceil(3/2) + 1 = 3` calls. -/
theorem C3_pagination_witness :
    (fetchGo 2 none feedW10).acts = feedW10 ∧
    (fetchGo 2 none feedW10).pages = ceilPages feedW10.length 2 + 1 :=
  (C3_pagination 2 (by decide) none feedW10).1 (by decide)

/-- Counterexample for C3 as originally stated: a 150-activity feed wholly
predating the start boundary is abandoned after a single page fetch, so
the number of fetched pages (1) is not `ceil(150/100) = 2`. -/
theorem C3_pages_counterexample :
    (fetchGo 100 (some sbSep) feedOld).reason = .earlyStop ∧
    (fetchGo 100 (some sbSep) feedOld).pages = 1 ∧
    feedOld.length = 150 ∧ ceilPages feedOld.length 100 = 2 := by decide

/-- Claim C4: with both boundaries given, every activity retained for
aggregation has its start timestamp inside the closed interval
[start, end], and a successful run aggregates exactly the retained rows —
so no out-of-range activity contributes to any weekly statistic,
regardless of the page it arrived on. -/
theorem C4_date_filter (acts : List Activity) (s e : Timestamp) :
    (∀ a ∈ filterRange (some s) (some e) acts,
      ∃ t, a.start_date = some t ∧ tsLe s t = true ∧ tsLe t e = true) ∧
    (∀ stats, processFetched acts (some s) (some e) = .ok stats →
      stats = weeklyStats (filterRange (some s) (some e) acts)) := by
  constructor
  · intro a ha
    have h2 := List.mem_filter.mp ha
    have h1 := List.mem_filter.mp h2.1
    cases hsd : a.start_date with
    | none =>
      have hks := h1.2
      simp [keepStart, keepAct, hsd] at hks
    | some t =>
      refine ⟨t, rfl, ?_, ?_⟩
      · have hks := h1.2
        simpa [keepStart, keepAct, hsd] using hks
      · have hke := h2.2
        simpa [keepEnd, endOk, hsd] using hke
  · intro stats h
    exact processFetched_ok h

/-- Witness for C4 on a concrete in-range activity and the source's own
2024-09-01 … 2025-04-21 boundaries. -/
theorem C4_date_filter_witness :
    ∃ t, actNoId.start_date = some t ∧
      tsLe sbSep t = true ∧ tsLe t ebApr = true :=
  (C4_date_filter [actNoId] sbSep ebApr).1 actNoId (by decide)

/-- Claim C5 (amended): for every bucket of a successful run,
`number_of_activities` equals the number of date-filtered activities whose
(calendar year, ISO week number) key is the bucket's key, provided every
activity carries an `id` (the aggregation counts non-null `id`s).  The
bucket key uses the CALENDAR year, not the ISO year the original claim
names (see the counterexample). -/
theorem C5_bucket_count (acts : List Activity) (sb eb : Option Timestamp)
    (stats : List WeeklyStat)
    (hid : ∀ a ∈ acts, a.id.isSome)
    (hok : processFetched acts sb eb = .ok stats) :
    ∀ st ∈ stats, st.number_of_activities =
      (filterRange sb eb acts).countP
        (fun a => decide (weekKeyOf a = some (st.year, st.week))) := by
  intro st hst
  rw [processFetched_ok hok] at hst
  have hrepr := mem_weeklyStats hst
  have hnum : st.number_of_activities =
      ((bucketOf (filterRange sb eb acts) (st.year, st.week)).filterMap
        Activity.id).length :=
    congrArg WeeklyStat.number_of_activities hrepr
  have hidb : ∀ a ∈ bucketOf (filterRange sb eb acts) (st.year, st.week),
      (Activity.id a).isSome := by
    intro a ha
    have ha1 := (List.mem_filter.mp ha).1
    have ha2 := (List.mem_filter.mp ha1).1
    have ha3 := (List.mem_filter.mp ha2).1
    exact hid a ha3
  rw [hnum, length_filterMap_all _ _ hidb, List.countP_eq_length_filter]
  rfl

/-- Witness for C5 on the synthetic W10 feed (all ids present). -/
theorem C5_bucket_count_witness :
    statW10.number_of_activities =
      (filterRange none none feedW10).countP
        (fun a => decide (weekKeyOf a = some (statW10.year, statW10.week))) :=
  C5_bucket_count feedW10 none none
    (weeklyStats (filterRange none none feedW10)) (by decide) rfl
    statW10 (List.Mem.head _)

/-- Counterexample for C5 as originally stated: the single activity on
2024-12-30 lies in the ISO (year, week) bucket (2025, 1), yet the weekly
table reports one activity under the key (2024, 1); no activity at all
falls in the ISO pair (2024, 1). -/
theorem C5_iso_bucket_counterexample :
    (analyze_training_data [actDec30] none none).map
        (fun l => l.map (fun s => (s.year, s.week, s.number_of_activities))) =
      .ok [(2024, 1, 1)] ∧
    actDec30.start_date.map (fun t => isoPair t.date) = some (2025, 1) ∧
    ([actDec30].countP (fun a =>
      decide (a.start_date.map (fun t => isoPair t.date) = some (2024, 1)))) = 0 := by
  decide

/-- Claim C6: for every weekly bucket, `average_speed_kmh` is
`total_distance_km / total_time_hours` whenever the bucket's total time is
nonzero; the division in the source (line 139) is unguarded, and when a
week's total time is zero the average speed is undefined (a non-finite
float, modelled by the undefined-marker `none`). -/
theorem C6_average_speed (rows : List Activity) (st : WeeklyStat)
    (hst : st ∈ weeklyStats rows) :
    (st.total_time_hours ≠ 0 →
      st.average_speed_kmh =
        some (st.total_distance_km / st.total_time_hours)) ∧
    (st.total_time_hours = 0 → st.average_speed_kmh = none) := by
  have hgen : ∀ k b, ((mkStat k b).total_time_hours ≠ 0 →
      (mkStat k b).average_speed_kmh =
        some ((mkStat k b).total_distance_km / (mkStat k b).total_time_hours)) ∧
      ((mkStat k b).total_time_hours = 0 →
        (mkStat k b).average_speed_kmh = none) := by
    intro k b
    constructor
    · intro hne
      simp only [mkStat] at hne ⊢
      rw [if_neg hne]
    · intro h0
      simp only [mkStat] at h0 ⊢
      rw [if_pos h0]
  have hrepr := mem_weeklyStats hst
  rw [hrepr]
  exact hgen _ _

/-- The zero-moving-time bucket has `total_time_hours = 0`. -/
theorem statZero_time_zero : statZero.total_time_hours = 0 := by
  have hgm : (bucketOf (filterRange none none [actZeroTime]) (2024, 19)).filterMap
      Activity.moving_time = [0] := by decide
  show ((((bucketOf (filterRange none none [actZeroTime]) (2024, 19)).filterMap
    Activity.moving_time).sum : ℤ) : ℚ) / 60 = 0
  rw [hgm]
  norm_num [List.sum_cons, List.sum_nil]

/-- Witness for C6: a week whose only activity has zero moving time gets
the undefined marker. -/
theorem C6_average_speed_witness : statZero.average_speed_kmh = none :=
  (C6_average_speed (filterRange none none [actZeroTime]) statZero
    (List.Mem.head _)).2 statZero_time_zero

end SmartRunCoach
